import Mathlib

set_option maxRecDepth 40000

/-!
Verification of the multi-user room coordinator (Room class and socket event
handlers of the signaling server).

The server keeps a process-wide `rooms` map from room id to a `Room`
(participants map, host, 160-entry seat array, screen-sharing flag) and
handles per-connection events: join-room, request-seat, leave-seat,
request-host, disconnect and the voice-signaling relays.

The embedding below is a direct functional translation of that code:
JavaScript `Map` (insertion-ordered, unique keys) becomes an association
list with in-place update; socket mutation becomes explicit state passing;
every `emit` becomes a symbolic `Emit` value describing its addressing.
Display attributes of a participant (name, color, position) are only
carried around by the code, never inspected by it, so they are represented
by an opaque `UserData` record.
-/

/-- Client-supplied participant attributes (`userData` in the code):
the client-generated identifier plus opaque display attributes. -/
structure UserData where
  id : String
  name : String
  deriving DecidableEq, Repr

/-- One entry of `room.users`: the spread `userData` plus the server-managed
`socketId` and `seatIndex` fields (both initialised to `null` by `addUser`). -/
structure User where
  data : UserData
  socketId : Option String
  seatIndex : Option Nat
  deriving DecidableEq, Repr

/-- JavaScript `Map.get`: value at the first matching key, if any. -/
def mapGet {α : Type} (m : List (String × α)) (k : String) : Option α :=
  match m with
  | [] => none
  | p :: t => if p.1 == k then some p.2 else mapGet t k

/-- JavaScript `Map.set`: replace in place if the key is present (keeping its
insertion position), otherwise append at the end. -/
def mapSet {α : Type} (m : List (String × α)) (k : String) (v : α) : List (String × α) :=
  match m with
  | [] => [(k, v)]
  | p :: t => if p.1 == k then (k, v) :: t else p :: mapSet t k v

/-- JavaScript `Map.delete`: drop the entry with the given key. -/
def mapDelete {α : Type} (m : List (String × α)) (k : String) : List (String × α) :=
  match m with
  | [] => []
  | p :: t => if p.1 == k then mapDelete t k else p :: mapDelete t k

/-- JavaScript truthiness of a nullable string (`null` and `""` are falsy). -/
def truthyOpt : Option String → Bool
  | none => false
  | some s => !(s == "")

/-- Room state: `this.id`, `this.users`, `this.host`, `this.seats`,
`this.screenSharing`. -/
structure Room where
  id : String
  users : List (String × User)
  host : Option String
  seats : List (Option String)
  screenSharing : Bool
  deriving DecidableEq, Repr

/-- The `Room` constructor: empty users map, no host, 160 empty seats. -/
def mkRoom (id : String) : Room :=
  { id := id, users := [], host := none,
    seats := List.replicate 160 none, screenSharing := false }

/-- `Room.addUser`: store the user record (overwriting any existing record for
the same id, with `socketId` and `seatIndex` reset to `null`); if the map now
has exactly one entry, that user becomes host. -/
def Room.addUser (room : Room) (userId : String) (userData : UserData) : Room :=
  let users := mapSet room.users userId
    { data := userData, socketId := none, seatIndex := none }
  let host := if users.length == 1 then some userId else room.host
  { room with users := users, host := host }

/-- `Room.removeUser`: clear the seat recorded in the user's `seatIndex`,
delete the user, then reassign the host: first remaining key if the host
left and the room is non-empty, `null` if the room is now empty. -/
def Room.removeUser (room : Room) (userId : String) : Room :=
  let seats :=
    match mapGet room.users userId with
    | some u =>
      match u.seatIndex with
      | some i => room.seats.set i none
      | none => room.seats
    | none => room.seats
  let users := mapDelete room.users userId
  let host :=
    if room.host == some userId && decide (0 < users.length) then
      users.head?.map Prod.fst
    else if users.length == 0 then none
    else room.host
  { room with seats := seats, users := users, host := host }

/-- Result of `Room.assignSeat`: `{success: true, seatIndex}` or
`{success: false, reason}`. -/
inductive AssignResult where
  | success (seatIndex : Int)
  | failure (reason : String)
  deriving DecidableEq, Repr

/-- `Room.assignSeat`: bounds check, occupancy check, membership check, in this
order; on success free the user's previous seat (if any), write the new seat
and the user's `seatIndex` field. -/
def Room.assignSeat (room : Room) (userId : String) (seatIndex : Int) :
    AssignResult × Room :=
  if seatIndex < 0 ∨ (room.seats.length : Int) ≤ seatIndex then
    (.failure "Invalid seat index", room)
  else if room.seats.getD seatIndex.toNat none ≠ none then
    (.failure "Seat already occupied", room)
  else
    match mapGet room.users userId with
    | none => (.failure "User not found", room)
    | some u =>
      let seats0 :=
        match u.seatIndex with
        | some j => room.seats.set j none
        | none => room.seats
      let seats1 := seats0.set seatIndex.toNat (some userId)
      let users1 := mapSet room.users userId { u with seatIndex := some seatIndex.toNat }
      (.success seatIndex, { room with seats := seats1, users := users1 })

/-- Shape of `Room.toJSON()`: note it carries the user records but not the
`seats` array. -/
structure RoomSnapshot where
  id : String
  userCount : Nat
  host : Option String
  users : List User
  screenSharing : Bool
  deriving DecidableEq, Repr

/-- `Room.toJSON`. -/
def Room.toJSON (room : Room) : RoomSnapshot :=
  { id := room.id, userCount := room.users.length, host := room.host,
    users := room.users.map Prod.snd, screenSharing := room.screenSharing }

/-- Per-connection state: `socket.id`, `socket.userId`, `socket.currentRoom`. -/
structure Socket where
  sid : String
  userId : Option String
  currentRoom : Option String
  deriving DecidableEq, Repr

/-- The process-wide `rooms` map. -/
abbrev Registry := List (String × Room)

/-- Payloads of the outbound events the handlers emit. -/
inductive Payload where
  | roomJoined (snapshot : RoomSnapshot) (isHost : Bool)
  | userJoined (userData : UserData)
  | userLeft (userId : String)
  | userCount (n : Nat)
  | seatAssigned (userId : String) (seatIndex : Int)
  | seatDenied (reason : String)
  | seatLeft (userId : String)
  | hostChanged (host : Option String)
  | voiceMsg (fromUserId : String) (body : String)
  deriving DecidableEq, Repr

/-- One outbound delivery: `socket.emit` (one connection),
`socket.to(room).emit` (room minus sender), `io.to(room).emit` (whole room). -/
inductive Emit where
  | toSocket (sid : String) (event : String) (payload : Payload)
  | toRoomExcept (roomId : String) (exceptSid : String) (event : String) (payload : Payload)
  | toRoom (roomId : String) (event : String) (payload : Payload)
  deriving DecidableEq, Repr

/-- The `room-joined` payload sent to the joiner: the spread of
`room.toJSON()` plus `isHost: room.host === userData.id`. -/
def mkRoomJoined (room : Room) (userId : String) : Payload :=
  .roomJoined room.toJSON (room.host == some userId)

/-- Implicit leave of the previous room inside the join-room handler:
`removeUser` on the old room plus the two broadcasts to it. -/
def joinLeaveOld (rooms : Registry) (socket : Socket) (ud : UserData) :
    Registry × List Emit :=
  match socket.currentRoom with
  | some oldId =>
    if oldId = "" then (rooms, [])
    else
      match mapGet rooms oldId with
      | some oldRoom =>
        let oldRoom' := oldRoom.removeUser ud.id
        (mapSet rooms oldId oldRoom',
         [Emit.toRoomExcept oldId socket.sid "user-left" (.userLeft ud.id),
          Emit.toRoomExcept oldId socket.sid "user-count-update"
            (.userCount oldRoom'.users.length)])
      | none => (rooms, [])
  | none => (rooms, [])

/-- `room.addUser(...)` followed by `user.socketId = socket.id`. -/
def joinUpdateRoom (room : Room) (sid : String) (ud : UserData) : Room :=
  let r := room.addUser ud.id ud
  match mapGet r.users ud.id with
  | some u => { r with users := mapSet r.users ud.id { u with socketId := some sid } }
  | none => r

/-- The join-room handler: create the room if absent, implicitly leave the
previous room, add the user, send `room-joined` to the joiner and
`user-joined` plus `user-count-update` to the rest of the room. -/
def handleJoinRoom (rooms : Registry) (socket : Socket) (roomId : String)
    (ud : UserData) : Registry × Socket × List Emit :=
  let rooms0 := if (mapGet rooms roomId).isSome then rooms
                else mapSet rooms roomId (mkRoom roomId)
  let step := joinLeaveOld rooms0 socket ud
  match mapGet step.1 roomId with
  | some room =>
    let room' := joinUpdateRoom room socket.sid ud
    (mapSet step.1 roomId room',
     { socket with currentRoom := some roomId, userId := some ud.id },
     step.2 ++
       [Emit.toSocket socket.sid "room-joined" (mkRoomJoined room' ud.id),
        Emit.toRoomExcept roomId socket.sid "user-joined" (.userJoined ud),
        Emit.toRoomExcept roomId socket.sid "user-count-update"
          (.userCount room'.users.length)])
  | none => (step.1, socket, step.2)

/-- The request-seat handler: guarded by room existence and a truthy
`socket.userId`; broadcasts `seat-assigned` on success, sends
`seat-request-denied` to the requester alone on failure. -/
def handleRequestSeat (rooms : Registry) (socket : Socket) (roomId : String)
    (seatIdx : Int) : Registry × List Emit :=
  match mapGet rooms roomId, socket.userId with
  | some room, some uid =>
    if uid = "" then (rooms, [])
    else
      match room.assignSeat uid seatIdx with
      | (.success i, room') =>
        (mapSet rooms roomId room',
         [Emit.toRoom roomId "seat-assigned" (.seatAssigned uid i)])
      | (.failure reason, room') =>
        (mapSet rooms roomId room',
         [Emit.toSocket socket.sid "seat-request-denied" (.seatDenied reason)])
  | _, _ => (rooms, [])

/-- The leave-seat handler: voluntary seat release plus a room-wide
`seat-left` broadcast; a no-op for an unseated or unknown user. -/
def handleLeaveSeat (rooms : Registry) (socket : Socket) (roomId : String) :
    Registry × List Emit :=
  match mapGet rooms roomId, socket.userId with
  | some room, some uid =>
    if uid = "" then (rooms, [])
    else
      match mapGet room.users uid with
      | some u =>
        match u.seatIndex with
        | some i =>
          let room' := { room with
            seats := room.seats.set i none,
            users := mapSet room.users uid { u with seatIndex := none } }
          (mapSet rooms roomId room', [Emit.toRoom roomId "seat-left" (.seatLeft uid)])
        | none => (rooms, [])
      | none => (rooms, [])
  | _, _ => (rooms, [])

/-- Room-level effect of the request-host handler: take the host slot when it
is vacant (falsy) or already ours; the Bool reports whether the branch fired. -/
def requestHostUpdate (room : Room) (uid : String) : Room × Bool :=
  if !(truthyOpt room.host) || room.host == some uid then
    ({ room with host := some uid }, true)
  else (room, false)

/-- The request-host handler: on a fired update, broadcast `host-changed`
room-wide (even when the requester already was host). -/
def handleRequestHost (rooms : Registry) (socket : Socket) (roomId : String) :
    Registry × List Emit :=
  match mapGet rooms roomId, socket.userId with
  | some room, some uid =>
    if uid = "" then (rooms, [])
    else
      match requestHostUpdate room uid with
      | (room', true) =>
        (mapSet rooms roomId room',
         [Emit.toRoom roomId "host-changed" (.hostChanged (some uid))])
      | (_, false) => (rooms, [])
  | _, _ => (rooms, [])

/-- The disconnect handler: `removeUser`, broadcast `user-left` and the new
count, broadcast `host-changed` whenever the room's host now differs from the
disconnecting user, and delete the room if it became empty. -/
def handleDisconnect (rooms : Registry) (socket : Socket) : Registry × List Emit :=
  match socket.currentRoom, socket.userId with
  | some rid, some uid =>
    if rid = "" ∨ uid = "" then (rooms, [])
    else
      match mapGet rooms rid with
      | some room =>
        let room' := room.removeUser uid
        let emits :=
          [Emit.toRoomExcept rid socket.sid "user-left" (.userLeft uid),
           Emit.toRoomExcept rid socket.sid "user-count-update"
             (.userCount room'.users.length)] ++
          (if room'.host == some uid then []
           else [Emit.toRoomExcept rid socket.sid "host-changed"
                   (.hostChanged room'.host)])
        let rooms' := if room'.users.length == 0 then mapDelete rooms rid
                      else mapSet rooms rid room'
        (rooms', emits)
      | none => (rooms, [])
  | _, _ => (rooms, [])

/-- The common body of the voice-offer, voice-answer and voice-ice-candidate
handlers (they differ only in the event name and the payload field name):
scan all connected sockets for the first one bound to the target user in the
named room and forward the payload to it, tagged with the sender's id. -/
def handleVoiceRelay (rooms : Registry) (socks : List Socket) (socket : Socket)
    (ev roomId targetUserId payload : String) : Registry × List Emit :=
  match mapGet rooms roomId, socket.userId with
  | some _, some uid =>
    if uid = "" then (rooms, [])
    else
      match socks.find? (fun s =>
          s.userId == some targetUserId && s.currentRoom == some roomId) with
      | some t => (rooms, [Emit.toSocket t.sid ev (.voiceMsg uid payload)])
      | none => (rooms, [])
  | _, _ => (rooms, [])

/-- Host invariant of the spec: an empty room has no host; a non-empty room's
host is a key of its users map. -/
def hostOkB (room : Room) : Bool :=
  match room.users, room.host with
  | [], h => h == none
  | _ :: _, some h => (mapGet room.users h).isSome
  | _ :: _, none => false

/-- Seat-to-user direction of the seat invariant at one index: an occupied
seat's occupant is a known user whose `seatIndex` points back at it. -/
def seatSlotOk (room : Room) (i : Nat) : Bool :=
  match room.seats.getD i none with
  | none => true
  | some v =>
    match mapGet room.users v with
    | some u => u.seatIndex == some i
    | none => false

/-- Seat-to-user direction of the seat invariant over the whole seat array. -/
def seatsConsistentB (room : Room) : Bool :=
  (List.range room.seats.length).all (seatSlotOk room)

/-- User-to-seat direction of the seat invariant for one user entry. -/
def userSeatOk (room : Room) (p : String × User) : Bool :=
  match p.2.seatIndex with
  | none => true
  | some i => room.seats.getD i none == some p.1

/-- User-to-seat direction of the seat invariant over the users map. -/
def usersConsistentB (room : Room) : Bool :=
  room.users.all (userSeatOk room)

/-- Full bidirectional seat invariant: seat `i` holds `p` iff `p`'s recorded
seat index is `i`. -/
def roomConsistentB (room : Room) : Bool :=
  seatsConsistentB room && usersConsistentB room

/-- Fresh connection used in the concrete runs below. -/
def trcS1 : Socket := ⟨"s1", none, none⟩

/-- Second fresh connection (a reconnect arrives on a new socket). -/
def trcS2 : Socket := ⟨"s2", none, none⟩

/-- Participant A's client-side record. -/
def trcA : UserData := ⟨"A", "Alice"⟩

/-- Participant B's client-side record. -/
def trcB : UserData := ⟨"B", "Bob"⟩

/-- Run: A joins room R on socket s1. -/
def trc1 : Registry × Socket × List Emit := handleJoinRoom [] trcS1 "R" trcA

/-- Run: A then requests seat 0. -/
def trc2 : Registry × List Emit := handleRequestSeat trc1.1 trc1.2.1 "R" 0

/-- Run: A rejoins room R on a fresh socket s2 (a reconnect). -/
def trc3 : Registry × Socket × List Emit := handleJoinRoom trc2.1 trcS2 "R" trcA

/-- Run: A joins R1 on s1. -/
def c2a : Registry × Socket × List Emit := handleJoinRoom [] trcS1 "R1" trcA

/-- Run: the same connection then joins R2, implicitly leaving R1 empty
(the join-room handler does not delete the emptied old room). -/
def c2b : Registry × Socket × List Emit := handleJoinRoom c2a.1 c2a.2.1 "R2" trcA

/-- Run: the connection, now bound to R2, sends request-host for R1. -/
def c2c : Registry × List Emit := handleRequestHost c2b.1 c2b.2.1 "R1"

/-- Run: A joins R on s1 (for the host-changed scenarios). -/
def c5a : Registry × Socket × List Emit := handleJoinRoom [] trcS1 "R" trcA

/-- Run: B joins R on s2; A stays host. -/
def c5b : Registry × Socket × List Emit := handleJoinRoom c5a.1 trcS2 "R" trcB

/-- Run: B (not the host) disconnects. -/
def c5disc : Registry × List Emit := handleDisconnect c5b.1 c5b.2.1

/-- Run: A, already the host, sends request-host. -/
def c5req : Registry × List Emit := handleRequestHost c5b.1 c5a.2.1 "R"

/-- Room in which A already occupies seat 5 (built through the code's own
operations). -/
def c3room : Room := (((mkRoom "R").addUser "A" trcA).assignSeat "A" 5).2

/-- Room with host A (seated at 3) and member B. -/
def c4room : Room :=
  ((((mkRoom "R").addUser "A" trcA).addUser "B" trcB).assignSeat "A" 3).2

/-- Room reached by the rejoin run: seat 0 still holds A while A's record says
unseated. -/
def c6r1 : Room := (mapGet trc3.1 "R").getD (mkRoom "")

/-- Room reached by a single fresh join of A on socket s2: all seats empty. -/
def c6r2 : Room := (mapGet (handleJoinRoom [] trcS2 "R" trcA).1 "R").getD (mkRoom "")

/-- Run: B joins room R on socket s2 (target of the relay scenarios). -/
def c10j : Registry × Socket × List Emit := handleJoinRoom [] trcS2 "R" trcB

/-- Run: A joins room R on socket s1, alongside B. -/
def c10full : Registry × Socket × List Emit := handleJoinRoom c10j.1 trcS1 "R" trcA

theorem mapGet_mapSet {α : Type} (m : List (String × α)) (k k' : String) (v : α) :
    mapGet (mapSet m k v) k' = if k == k' then some v else mapGet m k' := by
  induction m with
  | nil => simp [mapSet, mapGet]
  | cons p t ih =>
    by_cases hk : p.1 = k
    · subst hk
      by_cases hkk : p.1 = k'
      · subst hkk; simp [mapSet, mapGet]
      · simp [mapSet, mapGet, hkk]
    · by_cases hpk' : p.1 = k'
      · subst hpk'
        have hne : ¬ k = p.1 := fun h => hk h.symm
        simp [mapSet, mapGet, hk, hne]
      · simp [mapSet, mapGet, hk, hpk', ih]

theorem mapGet_mapDelete {α : Type} (m : List (String × α)) (k k' : String) :
    mapGet (mapDelete m k) k' = if k == k' then none else mapGet m k' := by
  induction m with
  | nil => simp [mapDelete, mapGet]
  | cons p t ih =>
    by_cases hk : p.1 = k
    · subst hk
      by_cases hkk : p.1 = k'
      · subst hkk; simp [mapDelete, mapGet, ih]
      · have hne : ¬ p.1 = k' := hkk
        simp [mapDelete, mapGet, hne, ih]
    · by_cases hpk' : p.1 = k'
      · subst hpk'
        have hne : ¬ k = p.1 := fun h => hk h.symm
        simp [mapDelete, mapGet, hk, hne]
      · simp [mapDelete, mapGet, hk, hpk', ih]

theorem mapSet_ne_nil {α : Type} (m : List (String × α)) (k : String) (v : α) :
    mapSet m k v ≠ [] := by
  cases m with
  | nil => simp [mapSet]
  | cons p t =>
    by_cases h : p.1 = k <;> simp [mapSet, h]

theorem mapGet_head {α : Type} (p : String × α) (t : List (String × α)) :
    mapGet (p :: t) p.1 = some p.2 := by
  simp [mapGet]

theorem getD_set_self (l : List (Option String)) (j : Nat) (h : j < l.length) :
    (l.set j none).getD j none = none := by
  induction l generalizing j with
  | nil => simp at h
  | cons a t ih =>
    cases j with
    | zero => simp [List.set, List.getD]
    | succ j' =>
      simp only [List.set, List.getD_cons_succ]
      exact ih j' (by simpa using h)

theorem getD_set_ne (l : List (Option String)) (j i : Nat) (h : i ≠ j) :
    (l.set j none).getD i none = l.getD i none := by
  induction l generalizing i j with
  | nil => simp [List.set]
  | cons a t ih =>
    cases j with
    | zero =>
      cases i with
      | zero => exact absurd rfl h
      | succ i' => simp [List.set, List.getD]
    | succ j' =>
      cases i with
      | zero => simp [List.set, List.getD]
      | succ i' =>
        simp only [List.set, List.getD_cons_succ]
        exact ih j' i' (fun hh => h (by rw [hh]))

theorem hostOkB_iff (room : Room) :
    hostOkB room = true ↔
      (room.users = [] ∧ room.host = none) ∨
      (room.users ≠ [] ∧ ∃ h, room.host = some h ∧ (mapGet room.users h).isSome = true) := by
  obtain ⟨rid, rusers, rhost, rseats, rss⟩ := room
  cases rusers with
  | nil => cases rhost <;> simp [hostOkB]
  | cons q t => cases rhost <;> simp [hostOkB]

theorem joinLeaveOld_none (rooms : Registry) (socket : Socket) (ud : UserData)
    (h : socket.currentRoom = none) : joinLeaveOld rooms socket ud = (rooms, []) := by
  unfold joinLeaveOld
  rw [h]

theorem seatsConsistent_spec (room : Room) (h : seatsConsistentB room = true)
    (i : Nat) (hi : i < room.seats.length) (v : String)
    (hv : room.seats.getD i none = some v) :
    ∃ u, mapGet room.users v = some u ∧ u.seatIndex = some i := by
  have hall : ∀ j ∈ List.range room.seats.length, seatSlotOk room j = true := by
    simpa [seatsConsistentB, List.all_eq_true] using h
  have hs := hall i (List.mem_range.mpr hi)
  unfold seatSlotOk at hs
  simp only [hv] at hs
  cases hmg : mapGet room.users v with
  | none => simp [hmg] at hs
  | some u =>
    simp only [hmg] at hs
    exact ⟨u, rfl, by simpa using hs⟩

theorem assignSeat_failure_reasons (room : Room) (uid : String) (idx : Int)
    (r : String) (h : (room.assignSeat uid idx).1 = .failure r) :
    r = "Invalid seat index" ∨ r = "Seat already occupied" ∨ r = "User not found" := by
  by_cases h1 : idx < 0 ∨ (room.seats.length : Int) ≤ idx
  · simp only [Room.assignSeat, if_pos h1] at h
    exact Or.inl (by injection h with h'; exact h'.symm)
  · by_cases h2 : room.seats.getD idx.toNat none ≠ none
    · simp only [Room.assignSeat, if_neg h1, if_pos h2] at h
      exact Or.inr (Or.inl (by injection h with h'; exact h'.symm))
    · cases hmg : mapGet room.users uid with
      | none =>
        simp only [Room.assignSeat, if_neg h1, if_neg h2, hmg] at h
        exact Or.inr (Or.inr (by injection h with h'; exact h'.symm))
      | some u =>
        simp only [Room.assignSeat, if_neg h1, if_neg h2, hmg] at h
        exact absurd h (by simp)

theorem hostOkB_addUser (room : Room) (k : String) (ud : UserData)
    (h : hostOkB room = true) : hostOkB (room.addUser k ud) = true := by
  rw [hostOkB_iff] at h ⊢
  have husers : (room.addUser k ud).users =
      mapSet room.users k { data := ud, socketId := none, seatIndex := none } := rfl
  have hhost : (room.addUser k ud).host =
      (if (mapSet room.users k
            { data := ud, socketId := none, seatIndex := none }).length == 1
       then some k else room.host) := rfl
  right
  rw [husers, hhost]
  refine ⟨mapSet_ne_nil _ _ _, ?_⟩
  by_cases hl : (mapSet room.users k
      { data := ud, socketId := none, seatIndex := none }).length = 1
  · refine ⟨k, ?_, ?_⟩
    · simp [hl]
    · rw [mapGet_mapSet]
      simp
  · rcases h with ⟨hnil, _⟩ | ⟨hne, h0, hh0, hsome⟩
    · exact absurd (by rw [hnil] ; rfl : (mapSet room.users k
        { data := ud, socketId := none, seatIndex := none }).length = 1) hl
    · refine ⟨h0, ?_, ?_⟩
      · simp [beq_iff_eq, hl, hh0]
      · rw [mapGet_mapSet]
        by_cases hk : k = h0
        · simp [hk]
        · simp [beq_iff_eq, hk, hsome]

theorem hostOkB_removeUser (room : Room) (uid : String)
    (h : hostOkB room = true) : hostOkB (room.removeUser uid) = true := by
  rw [hostOkB_iff] at h ⊢
  have husers : (room.removeUser uid).users = mapDelete room.users uid := rfl
  have hhost : (room.removeUser uid).host =
      (if room.host == some uid && decide (0 < (mapDelete room.users uid).length) then
        (mapDelete room.users uid).head?.map Prod.fst
      else if (mapDelete room.users uid).length == 0 then none
      else room.host) := rfl
  rw [husers, hhost]
  cases hd : mapDelete room.users uid with
  | nil =>
    left
    exact ⟨rfl, by simp⟩
  | cons q t =>
    right
    refine ⟨by simp, ?_⟩
    by_cases hh : room.host = some uid
    · refine ⟨q.1, ?_, ?_⟩
      · simp [hh]
      · rw [mapGet_head]
        rfl
    · rcases h with ⟨hnil, _⟩ | ⟨hne, h0, hh0, hsome⟩
      · exact absurd (by rw [hnil] at hd; simp [mapDelete] at hd : False) id
      · have hg : ¬ h0 = uid := fun he => hh (by rw [hh0, he])
        refine ⟨h0, ?_, ?_⟩
        · simp [beq_iff_eq, hh0, hg]
        · rw [← hd, mapGet_mapDelete]
          have hne' : ¬ uid = h0 := fun heq => hg heq.symm
          simp [beq_iff_eq, hne', hsome]

theorem hostOkB_requestHost (room : Room) (uid : String)
    (h : hostOkB room = true) (hm : (mapGet room.users uid).isSome = true) :
    hostOkB (requestHostUpdate room uid).1 = true := by
  unfold requestHostUpdate
  by_cases hc : (!(truthyOpt room.host) || room.host == some uid) = true
  · rw [if_pos hc]
    rw [hostOkB_iff]
    right
    refine ⟨?_, uid, rfl, hm⟩
    intro hnil
    have hnil' : room.users = [] := hnil
    rw [hnil'] at hm
    simp [mapGet] at hm
  · rw [if_neg hc]
    exact h

/-- C1 (code bug): after the operation sequence "A joins on s1, A takes seat 0,
A rejoins on a fresh socket s2", the room's seat map and participant records
are no longer mutually consistent: seat 0 still holds A while A's recorded
seat-index field is `null` (the rejoin path of `addUser` overwrites the record
with `seatIndex: null` without releasing the seat). Before the rejoin the
state was consistent, so the join operation itself breaks the claimed
invariant. -/
theorem rejoin_breaks_seat_consistency :
    ((mapGet trc2.1 "R").map roomConsistentB = some true) ∧
    ((mapGet trc3.1 "R").map roomConsistentB = some false) ∧
    ((mapGet trc3.1 "R").map (fun r => r.seats.getD 0 none) = some (some "A")) ∧
    ((mapGet trc3.1 "R").map (fun r => (mapGet r.users "A").map User.seatIndex)
        = some (some none)) := by decide

/-- C7 (code bug): a rejoin with the same identifier does keep the participant
count at 1 and the host unchanged, but it does not preserve the existing seat
assignment: A held seat 0 before rejoining and afterwards A's seat-index field
is `null` (while seat 0 stays blocked). -/
theorem rejoin_resets_seat_assignment :
    ((mapGet trc2.1 "R").map (fun r => r.users.length) = some 1) ∧
    ((mapGet trc2.1 "R").map (fun r => (mapGet r.users "A").map User.seatIndex)
        = some (some (some 0))) ∧
    ((mapGet trc3.1 "R").map (fun r => r.users.length) = some 1) ∧
    ((mapGet trc3.1 "R").map Room.host = some (some "A")) ∧
    ((mapGet trc3.1 "R").map (fun r => (mapGet r.users "A").map User.seatIndex)
        = some (some none)) := by decide

/-- C2 counterexample: requestHost does not preserve the host invariant. After
"A joins R1, then the same connection joins R2" the room R1 is empty, hostless
and still registered (the implicit leave never deletes it), and the invariant
holds there; the connection's request-host for R1 then installs A as host of
the empty room R1, violating `host = none iff participants empty`. -/
theorem requestHost_breaks_host_invariant :
    ((mapGet c2b.1 "R1").map (fun r => r.users.length) = some 0) ∧
    ((mapGet c2b.1 "R1").map hostOkB = some true) ∧
    ((mapGet c2c.1 "R1").map (fun r => (r.users.length, r.host))
        = some (0, some "A")) ∧
    ((mapGet c2c.1 "R1").map hostOkB = some false) := by decide

/-- C2 (amended): the host invariant (empty room has no host; a non-empty
room's host is a member) is preserved by addUser (join), removeUser (leave and
disconnect), and by the request-host update whenever the requesting user is a
member of the target room. (Without the membership hypothesis the update can
violate it, as the counterexample shows.) -/
theorem host_invariant_preserved_by_membership_ops (room : Room)
    (uid k : String) (ud : UserData) (h : hostOkB room = true) :
    hostOkB (room.addUser k ud) = true ∧
    hostOkB (room.removeUser uid) = true ∧
    ((mapGet room.users uid).isSome = true →
      hostOkB (requestHostUpdate room uid).1 = true) :=
  ⟨hostOkB_addUser room k ud h, hostOkB_removeUser room uid h,
   fun hm => hostOkB_requestHost room uid h hm⟩

/-- C2 witness: the preservation theorem applied to the concrete two-member
room with host A. -/
theorem host_invariant_preserved_witness :
    hostOkB (c4room.addUser "C" ⟨"C", "Cleo"⟩) = true ∧
    hostOkB (c4room.removeUser "A") = true ∧
    hostOkB (requestHostUpdate c4room "A").1 = true := by
  have h := host_invariant_preserved_by_membership_ops c4room "A" "C"
      ⟨"C", "Cleo"⟩ (by decide)
  exact ⟨h.1, h.2.1, h.2.2 (by decide)⟩

/-- C5 (code bug): host-changed is emitted without an actual host change, in
two ways. With host A and member B in room R: (1) B's disconnect emits
host-changed carrying A although the host was A before and after (the handler
guards on `room.host !== socket.userId`, which holds for every non-host
leaver); (2) a request-host sent by A, who already is host, re-emits
host-changed. -/
theorem host_changed_emitted_without_change :
    ((mapGet c5b.1 "R").map Room.host = some (some "A")) ∧
    (c5disc.2 =
      [Emit.toRoomExcept "R" "s2" "user-left" (.userLeft "B"),
       Emit.toRoomExcept "R" "s2" "user-count-update" (.userCount 1),
       Emit.toRoomExcept "R" "s2" "host-changed" (.hostChanged (some "A"))]) ∧
    ((mapGet c5disc.1 "R").map Room.host = some (some "A")) ∧
    (c5req.2 = [Emit.toRoom "R" "host-changed" (.hostChanged (some "A"))]) ∧
    ((mapGet c5req.1 "R").map Room.host = some (some "A")) := by decide

/-- C8: every failed seat assignment (invalid index, occupied seat, or unknown
participant) returns the room completely unchanged, so no seat entry and no
participant's seat-index field is mutated on any error path. -/
theorem assignSeat_failure_no_mutation (room : Room) (uid : String) (idx : Int)
    (r : String) (h : (room.assignSeat uid idx).1 = .failure r) :
    (room.assignSeat uid idx).2 = room := by
  by_cases h1 : idx < 0 ∨ (room.seats.length : Int) ≤ idx
  · simp [Room.assignSeat, h1]
  · by_cases h2 : room.seats.getD idx.toNat none ≠ none
    · simp only [Room.assignSeat, if_neg h1, if_pos h2]
    · cases hmg : mapGet room.users uid with
      | none => simp only [Room.assignSeat, if_neg h1, if_neg h2, hmg]
      | some u =>
        exfalso
        simp only [Room.assignSeat, if_neg h1, if_neg h2, hmg] at h
        exact absurd h (by simp)

/-- C8 witness: an occupied-seat request against the concrete room where A
already sits at seat 5 fails and provably leaves the room untouched. -/
theorem assignSeat_failure_no_mutation_witness :
    (c3room.assignSeat "B" 5).2 = c3room :=
  assignSeat_failure_no_mutation c3room "B" 5 "Seat already occupied" (by decide)

/-- C3 counterexample: the occupancy check does not exempt the requester's own
seat. In the concrete room where A occupies seat 5, A's request for seat 5 is
known to the room and the occupant is A itself, yet the call fails with the
occupied-seat error instead of succeeding. -/
theorem assignSeat_rejects_own_seat :
    c3room.seats.getD 5 none = some "A" ∧
    (mapGet c3room.users "A").isSome = true ∧
    (c3room.assignSeat "A" 5).1 = .failure "Seat already occupied" ∧
    (c3room.assignSeat "A" 5).1 ≠ .success 5 := by decide

/-- C3 (amended): assignSeat checks its preconditions in priority order — it
fails with the invalid-index error exactly when the index is outside
[0, capacity); otherwise with the occupied-seat error exactly when the seat is
held by any participant (including the requester re-requesting their own
seat); otherwise with the unknown-user error exactly when the participant is
not in the room; otherwise it succeeds carrying the confirmed index. -/
theorem assignSeat_error_priority (room : Room) (uid : String) (idx : Int) :
    ((room.assignSeat uid idx).1 = .failure "Invalid seat index" ↔
      (idx < 0 ∨ (room.seats.length : Int) ≤ idx)) ∧
    ((room.assignSeat uid idx).1 = .failure "Seat already occupied" ↔
      (¬(idx < 0 ∨ (room.seats.length : Int) ≤ idx) ∧
        room.seats.getD idx.toNat none ≠ none)) ∧
    ((room.assignSeat uid idx).1 = .failure "User not found" ↔
      (¬(idx < 0 ∨ (room.seats.length : Int) ≤ idx) ∧
        room.seats.getD idx.toNat none = none ∧ mapGet room.users uid = none)) ∧
    ((room.assignSeat uid idx).1 = .success idx ↔
      (¬(idx < 0 ∨ (room.seats.length : Int) ≤ idx) ∧
        room.seats.getD idx.toNat none = none ∧
        (mapGet room.users uid).isSome = true)) := by
  by_cases h1 : idx < 0 ∨ (room.seats.length : Int) ≤ idx
  · refine ⟨?_, ?_, ?_, ?_⟩ <;> simp [Room.assignSeat, h1]
  · by_cases h2 : room.seats.getD idx.toNat none ≠ none
    · have h2n := h2
      rw [List.getD_eq_getElem?_getD] at h2n
      simp only [Room.assignSeat, if_neg h1, if_pos h2]
      refine ⟨?_, ?_, ?_, ?_⟩ <;> simp [h1, h2n]
    · have h2' : room.seats.getD idx.toNat none = none := not_not.mp h2
      rw [List.getD_eq_getElem?_getD] at h2'
      cases hmg : mapGet room.users uid with
      | none =>
        simp only [Room.assignSeat, if_neg h1, if_neg h2, hmg]
        refine ⟨?_, ?_, ?_, ?_⟩ <;> simp [h1, h2', hmg]
      | some u =>
        simp only [Room.assignSeat, if_neg h1, if_neg h2, hmg]
        refine ⟨?_, ?_, ?_, ?_⟩ <;> simp [h1, h2', hmg]

/-- C4: when the host (a present member) is removed from a room — which is
exactly what both the explicit leave path and the disconnect path do — the
host becomes the insertion-order-first remaining participant if any remain,
`none` if the room became empty, and in either case no seat of the room is
still held by the leaver. The seat-release part assumes the seat map is in
its consistent state (which every reachable state has unless the rejoin bug
recorded under C1 has been triggered). -/
theorem removeUser_host_succession_and_seat_release (room : Room) (uid : String)
    (u : User) (hmem : mapGet room.users uid = some u)
    (hhost : room.host = some uid) (hcons : seatsConsistentB room = true) :
    ((room.removeUser uid).users = [] → (room.removeUser uid).host = none) ∧
    ((room.removeUser uid).users ≠ [] →
      (room.removeUser uid).host = (room.removeUser uid).users.head?.map Prod.fst) ∧
    (∀ i, i < (room.removeUser uid).seats.length →
      (room.removeUser uid).seats.getD i none ≠ some uid) := by
  have husers : (room.removeUser uid).users = mapDelete room.users uid := rfl
  have hhostv : (room.removeUser uid).host =
      (if room.host == some uid && decide (0 < (mapDelete room.users uid).length) then
        (mapDelete room.users uid).head?.map Prod.fst
      else if (mapDelete room.users uid).length == 0 then none
      else room.host) := rfl
  have hseats : (room.removeUser uid).seats =
      (match u.seatIndex with
       | some j => room.seats.set j none
       | none => room.seats) := by
    simp only [Room.removeUser, hmem]
  refine ⟨?_, ?_, ?_⟩
  · intro hnil
    rw [husers] at hnil
    rw [hhostv, hnil]
    simp
  · intro hne
    rw [husers] at hne
    rw [hhostv, husers]
    cases hd : mapDelete room.users uid with
    | nil => exact absurd hd hne
    | cons q t => simp [hhost]
  · intro i hi
    rw [hseats] at hi ⊢
    cases hsi : u.seatIndex with
    | none =>
      simp only [hsi] at hi ⊢
      intro hget
      obtain ⟨u', hu', hidx⟩ := seatsConsistent_spec room hcons i hi uid hget
      rw [hmem] at hu'
      injection hu' with hu'
      rw [← hu'] at hidx
      rw [hsi] at hidx
      exact absurd hidx (by simp)
    | some j =>
      simp only [hsi] at hi ⊢
      have hi' : i < room.seats.length := by simpa [List.length_set] using hi
      by_cases hij : i = j
      · subst hij
        rw [getD_set_self room.seats i hi']
        simp
      · rw [getD_set_ne room.seats j i hij]
        intro hget
        obtain ⟨u', hu', hidx⟩ := seatsConsistent_spec room hcons i hi' uid hget
        rw [hmem] at hu'
        injection hu' with hu'
        rw [← hu'] at hidx
        rw [hsi] at hidx
        injection hidx with hidx
        exact hij hidx.symm

/-- C4 witness: in the concrete room with host A seated at 3 and member B,
removing A promotes B (the insertion-order-first remaining member) and frees
seat 3. -/
theorem removeUser_host_succession_witness :
    seatsConsistentB c4room = true ∧
    (c4room.removeUser "A").host = some "B" ∧
    (c4room.removeUser "A").seats.getD 3 none ≠ some "A" := by
  have h := removeUser_host_succession_and_seat_release c4room "A"
      ⟨⟨"A", "Alice"⟩, none, some 3⟩ (by decide) (by decide) (by decide)
  refine ⟨by decide, ?_, h.2.2 3 (by decide)⟩
  rw [h.2.1 (by decide)]
  decide

/-- C6 counterexample: the room-joined payload does not contain the seat
array. The rejoin-bug room (seat 0 held by A) and the fresh one-join room
(all seats free) produce identical room-joined payloads while their seat
arrays differ, so no reading of the payload can recover the seat array. -/
theorem room_joined_payload_lacks_seats :
    ¬ ∃ f : Payload → List (Option String),
        ∀ (r : Room) (uid : String), f (mkRoomJoined r uid) = r.seats := by
  rintro ⟨f, hf⟩
  have h1 := hf c6r1 "A"
  have h2 := hf c6r2 "A"
  have hp : mkRoomJoined c6r1 "A" = mkRoomJoined c6r2 "A" := by decide
  have hs : c6r1.seats ≠ c6r2.seats := by decide
  apply hs
  rw [← h1, ← h2, hp]

/-- C6 (amended): on a join from a fresh connection the joiner alone receives
the room-joined payload, which carries the updated room's full participant
list (each record including its seat-index field), the host identifier, the
screen-sharing flag, the user count and the isHost flag — but not the seat
array itself — while the existing members instead receive a user-joined
notification (and a count update). -/
theorem room_joined_payload_contents (rooms : Registry) (socket : Socket)
    (roomId : String) (ud : UserData) (hfresh : socket.currentRoom = none) :
    ∃ room1 : Room,
      mapGet (handleJoinRoom rooms socket roomId ud).1 roomId = some room1 ∧
      (handleJoinRoom rooms socket roomId ud).2.2 =
        [Emit.toSocket socket.sid "room-joined"
           (.roomJoined room1.toJSON (room1.host == some ud.id)),
         Emit.toRoomExcept roomId socket.sid "user-joined" (.userJoined ud),
         Emit.toRoomExcept roomId socket.sid "user-count-update"
           (.userCount room1.users.length)] ∧
      room1.toJSON.users = room1.users.map Prod.snd ∧
      room1.toJSON.host = room1.host ∧
      room1.toJSON.screenSharing = room1.screenSharing ∧
      room1.toJSON.userCount = room1.users.length := by
  by_cases hp : (mapGet rooms roomId).isSome
  · obtain ⟨room0, hr0⟩ := Option.isSome_iff_exists.mp hp
    refine ⟨joinUpdateRoom room0 socket.sid ud, ?_, ?_, rfl, rfl, rfl, rfl⟩
    · simp [handleJoinRoom, joinLeaveOld_none _ _ _ hfresh, hp, hr0, mapGet_mapSet]
    · simp [handleJoinRoom, joinLeaveOld_none _ _ _ hfresh, hp, hr0, mkRoomJoined]
  · have hb : (mapGet rooms roomId).isSome = false := by simpa using hp
    have hset : mapGet (mapSet rooms roomId (mkRoom roomId)) roomId
        = some (mkRoom roomId) := by rw [mapGet_mapSet]; simp
    refine ⟨joinUpdateRoom (mkRoom roomId) socket.sid ud, ?_, ?_, rfl, rfl, rfl, rfl⟩
    · simp [handleJoinRoom, joinLeaveOld_none _ _ _ hfresh, hb, hset, mapGet_mapSet]
    · simp [handleJoinRoom, joinLeaveOld_none _ _ _ hfresh, hb, hset, mkRoomJoined]

/-- C6 witness: the payload theorem applied to A joining the empty registry on
the fresh socket s1. -/
theorem room_joined_payload_contents_witness :
    ∃ room1 : Room,
      mapGet (handleJoinRoom [] trcS1 "R" trcA).1 "R" = some room1 ∧
      (handleJoinRoom [] trcS1 "R" trcA).2.2 =
        [Emit.toSocket trcS1.sid "room-joined"
           (.roomJoined room1.toJSON (room1.host == some trcA.id)),
         Emit.toRoomExcept "R" trcS1.sid "user-joined" (.userJoined trcA),
         Emit.toRoomExcept "R" trcS1.sid "user-count-update"
           (.userCount room1.users.length)] ∧
      room1.toJSON.users = room1.users.map Prod.snd ∧
      room1.toJSON.host = room1.host ∧
      room1.toJSON.screenSharing = room1.screenSharing ∧
      room1.toJSON.userCount = room1.users.length :=
  room_joined_payload_contents [] trcS1 "R" trcA rfl

/-- C9 counterexample: the denial reason the code sends is its literal message
string, e.g. an out-of-bounds request is denied with reason
"Invalid seat index", which is none of the three spec tokens. -/
theorem seat_denied_reason_not_spec_tokens :
    (handleRequestSeat trc1.1 trc1.2.1 "R" 999).2 =
      [Emit.toSocket "s1" "seat-request-denied" (.seatDenied "Invalid seat index")] ∧
    ("Invalid seat index" ≠ "InvalidSeat" ∧
      "Invalid seat index" ≠ "SeatOccupied" ∧
      "Invalid seat index" ≠ "ParticipantNotFound") := by decide

/-- C9 (amended): every failed seat request produces exactly one
seat-request-denied emit, addressed to the requesting connection alone, whose
reason string is one of the code's three literals "Invalid seat index",
"Seat already occupied" and "User not found" (corresponding to the spec's
InvalidSeat / SeatOccupied / ParticipantNotFound cases). -/
theorem seat_denied_requester_only_reasons (rooms : Registry) (socket : Socket)
    (roomId : String) (seatIdx : Int) (room : Room) (uid reason : String)
    (hroom : mapGet rooms roomId = some room)
    (huid : socket.userId = some uid) (hne : uid ≠ "")
    (hfail : (room.assignSeat uid seatIdx).1 = .failure reason) :
    (handleRequestSeat rooms socket roomId seatIdx).2 =
      [Emit.toSocket socket.sid "seat-request-denied" (.seatDenied reason)] ∧
    (reason = "Invalid seat index" ∨ reason = "Seat already occupied" ∨
      reason = "User not found") := by
  refine ⟨?_, assignSeat_failure_reasons room uid seatIdx reason hfail⟩
  rcases hres : room.assignSeat uid seatIdx with ⟨res, room2⟩
  rw [hres] at hfail
  cases res with
  | success i => exact absurd hfail (by simp)
  | failure r2 =>
    have hr2 : r2 = reason := by simpa using hfail
    subst hr2
    simp only [handleRequestSeat, hroom, huid]
    rw [if_neg hne, hres]

/-- C9 witness: the denial theorem applied to the concrete negative-index
request by A on socket s1. -/
theorem seat_denied_requester_only_witness :
    (handleRequestSeat trc1.1 trc1.2.1 "R" (-7)).2 =
      [Emit.toSocket trc1.2.1.sid "seat-request-denied"
         (.seatDenied "Invalid seat index")] ∧
    ("Invalid seat index" = "Invalid seat index" ∨
      "Invalid seat index" = "Seat already occupied" ∨
      "Invalid seat index" = "User not found") :=
  seat_denied_requester_only_reasons trc1.1 trc1.2.1 "R" (-7)
    ((mapGet trc1.1 "R").getD (mkRoom "")) "A" "Invalid seat index"
    (by decide) (by decide) (by decide) (by decide)

/-- C10 counterexample: a voice event is dropped even though a live connection
is bound to the target pair, because the sending connection itself has no
bound identifier: with B live-bound to (B, R), a never-joined socket's
voice-offer targeting B in R produces no forwarding at all. -/
theorem voice_relay_drops_unbound_sender :
    (handleVoiceRelay c10j.1 [c10j.2.1] trcS1 "voice-offer" "R" "B" "sdp").2
        = [] ∧
    (c10j.2.1.userId = some "B" ∧ c10j.2.1.currentRoom = some "R") ∧
    trcS1.userId = none := by decide

/-- C10 (amended): provided the sending connection is bound to a participant
identifier and the named room exists in the registry, the relay changes no
room state and: if some connection is bound to the target pair, the payload
is forwarded, tagged with the sender's identifier, to exactly the first such
connection; if none is, nothing is emitted. -/
theorem voice_relay_forwarding (rooms : Registry) (socks : List Socket)
    (socket : Socket) (ev roomId target payload uid : String)
    (hroom : (mapGet rooms roomId).isSome = true)
    (huid : socket.userId = some uid) (hne : uid ≠ "") :
    (handleVoiceRelay rooms socks socket ev roomId target payload).1 = rooms ∧
    (∀ t, socks.find? (fun s =>
        s.userId == some target && s.currentRoom == some roomId) = some t →
      (handleVoiceRelay rooms socks socket ev roomId target payload).2 =
        [Emit.toSocket t.sid ev (.voiceMsg uid payload)]) ∧
    ((∀ s ∈ socks, ¬(s.userId = some target ∧ s.currentRoom = some roomId)) →
      (handleVoiceRelay rooms socks socket ev roomId target payload).2 = []) := by
  obtain ⟨r0, hr0⟩ := Option.isSome_iff_exists.mp hroom
  cases hf : socks.find? (fun s =>
      s.userId == some target && s.currentRoom == some roomId) with
  | some t0 =>
    have hv : handleVoiceRelay rooms socks socket ev roomId target payload
        = (rooms, [Emit.toSocket t0.sid ev (.voiceMsg uid payload)]) := by
      simp only [handleVoiceRelay, hr0, huid]
      rw [if_neg hne, hf]
    refine ⟨by rw [hv], ?_, ?_⟩
    · intro t ht
      injection ht with ht
      subst ht
      rw [hv]
    · intro hnone
      exfalso
      have hmem := List.mem_of_find?_eq_some hf
      have hpt := List.find?_some hf
      simp only [Bool.and_eq_true, beq_iff_eq] at hpt
      exact hnone t0 hmem hpt
  | none =>
    have hv : handleVoiceRelay rooms socks socket ev roomId target payload
        = (rooms, []) := by
      simp only [handleVoiceRelay, hr0, huid]
      rw [if_neg hne, hf]
    refine ⟨by rw [hv], ?_, fun _ => by rw [hv]⟩
    intro t ht
    exact absurd ht (by simp)

/-- C10 witness: the relay theorem applied to the concrete room with A and B,
forwarding A's offer to B's live socket s2. -/
theorem voice_relay_forwarding_witness :
    (handleVoiceRelay c10full.1 [c10j.2.1, c10full.2.1] c10full.2.1
        "voice-offer" "R" "B" "sdp").1 = c10full.1 ∧
    (handleVoiceRelay c10full.1 [c10j.2.1, c10full.2.1] c10full.2.1
        "voice-offer" "R" "B" "sdp").2 =
      [Emit.toSocket c10j.2.1.sid "voice-offer" (.voiceMsg "A" "sdp")] := by
  have h := voice_relay_forwarding c10full.1 [c10j.2.1, c10full.2.1] c10full.2.1
      "voice-offer" "R" "B" "sdp" "A" (by decide) (by decide) (by decide)
  exact ⟨h.1, h.2.1 c10j.2.1 (by decide)⟩
